import Mathlib

/-!
Verification of the NumberQuestArena puzzle engine.

The definitions below are shallow embeddings of the TypeScript functions in
`client/src/pages/game.tsx`, `client/src/pages/game-new.tsx`,
`client/src/pages/constructor.tsx` and `mobile/src/lib/gameLogic.ts`.
JavaScript numbers are modelled as exact rationals (`ℚ`); every token that
actually flows into the evaluators in the repository is an integer cell
value, so token payloads are modelled as `ℤ` (and as `ℕ` for the
constructor surface, whose editor only accepts integers 0..99).
-/

namespace NumberQuest

/-- Operator symbols `+ - * / ^` (`Operation` in the source). -/
inductive Op where
  | add
  | sub
  | mul
  | div
  | pow
deriving DecidableEq, Repr

/-- A token of an expression: a number or an operator
(`number | Operation` in the source).  All call sites in the repository
feed integer cell values, so the numeric payload is `ℤ`. -/
inductive Tok where
  | num (v : ℤ)
  | op (o : Op)
deriving DecidableEq, Repr

/-- JavaScript `Math.round(x * 100) / 100`: round to 2 decimal places,
half away from minus infinity (JS `Math.round` is `⌊x + 0.5⌋`). -/
def jsRound2 (q : ℚ) : ℚ :=
  (⌊q * 100 + 1 / 2⌋ : ℚ) / 100

/-- One `switch (operation)` step of the evaluator in `game.tsx`
(identical in `mobile/src/lib/gameLogic.ts` and `constructor.tsx`):
division by zero and exponentiation of a negative accumulated result
return `null`, modelled as `none`. -/
def applyOp (o : Op) (r : ℚ) (v : ℤ) : Option ℚ :=
  match o with
  | .add => some (r + v)
  | .sub => some (r - v)
  | .mul => some (r * v)
  | .div => if v = 0 then none else some (r / v)
  | .pow => if r < 0 then none else some (r ^ v)

/-- One `switch (operation)` step of the evaluator in `game-new.tsx`,
which lacks the `if (result < 0) return null` guard on `^`. -/
def applyOpNew (o : Op) (r : ℚ) (v : ℤ) : Option ℚ :=
  match o with
  | .add => some (r + v)
  | .sub => some (r - v)
  | .mul => some (r * v)
  | .div => if v = 0 then none else some (r / v)
  | .pow => some (r ^ v)

/-- The `for (let i = 1; i < expression.length; i += 2)` loop of the
evaluators, parametrised by the per-operator step.  The `[_]` case is the
constructor variant's `if (i + 1 >= expression.length) break`; a number in
an operator slot matches no `case` of the `switch`, leaving the
accumulator unchanged and skipping the pair; an operator token coerced
`as number` into an operand slot yields a non-numeric JS value and never a
valid result, modelled as failure (no claim exercises that branch). -/
def evalSteps (step : Op → ℚ → ℤ → Option ℚ) : ℚ → List Tok → Option ℚ
  | r, [] => some r
  | r, [_] => some r
  | r, .op o :: .num v :: rest =>
    match step o r v with
    | none => none
    | some r2 => evalSteps step r2 rest
  | r, .num _ :: _ :: rest => evalSteps step r rest
  | _, .op _ :: .op _ :: _ => none

/-- `let result = expression[0] as number` followed by the loop, then the
final `Math.round(result * 100) / 100`.  A leading operator or an empty
list is coerced `as number` in the source and can never produce a numeric
result; it is modelled as failure (never exercised: every caller starts
paths on a number cell). -/
def evalToks (step : Op → ℚ → ℤ → Option ℚ) : List Tok → Option ℚ
  | .num v :: rest => (evalSteps step (v : ℚ) rest).map jsRound2
  | _ => none

/-- `evaluateExpression` in `client/src/pages/game.tsx` (lines 200-254):
rejects token lists of length < 3 or of even length, folds left to right,
and rounds the final result to two decimals. -/
def evaluateExpression (e : List Tok) : Option ℚ :=
  if e.length < 3 ∨ e.length % 2 = 0 then none else evalToks applyOp e

/-- `evaluateExpression` in `mobile/src/lib/gameLogic.ts` (lines 46-80),
textually the same algorithm as the one in `game.tsx`. -/
def evaluateExpressionMobile (e : List Tok) : Option ℚ :=
  if e.length < 3 ∨ e.length % 2 = 0 then none else evalToks applyOp e

/-- `evaluateExpression` in `client/src/pages/game-new.tsx`
(lines 192-224): same structure, but the `^` case applies `Math.pow`
without checking the sign of the accumulated result. -/
def evaluateExpressionNew (e : List Tok) : Option ℚ :=
  if e.length < 3 ∨ e.length % 2 = 0 then none else evalToks applyOpNew e

/-- `evaluateExpression` in `client/src/pages/constructor.tsx`
(lines 139-175): only rejects the empty list (`expression.length < 1`),
breaks before an unpaired trailing token (the `[_]` case of `evalSteps`),
and otherwise shares the stepping — including the negative-base guard on
`^` — with `game.tsx`. -/
def evaluateExpressionCtor (e : List Tok) : Option ℚ :=
  evalToks applyOp e

/-- The (operator, operand) tail of a well-formed token list, flattened
into alternating operator/number tokens. -/
def pairsToks (ps : List (Op × ℤ)) : List Tok :=
  ps.flatMap (fun p => [Tok.op p.1, Tok.num p.2])

/-- A well-formed token list: a leading number followed by
(operator, operand) pairs; for `ps ≠ []` these are exactly the token
lists of odd length ≥ 3 alternating number/operator from index 0. -/
def wellFormedToks (v : ℤ) (ps : List (Op × ℤ)) : List Tok :=
  Tok.num v :: pairsToks ps

/-- Modelled from the spec: the strict left-to-right fold with no operator
precedence, `result := token[0]` then each pair applied in order with
conventional arithmetic. -/
def specLeftFold (v : ℚ) (ps : List (Op × ℤ)) : ℚ :=
  ps.foldl
    (fun r p =>
      match p.1 with
      | .add => r + p.2
      | .sub => r - p.2
      | .mul => r * p.2
      | .div => r / p.2
      | .pow => r ^ p.2)
    v

/-- Cell type tag (`CellType` in the source). -/
inductive CellType where
  | number
  | operation
deriving DecidableEq, Repr

/-- A board cell (`Cell` in `game.tsx` / `gameLogic.ts`): a value and a
type.  The source additionally stores the redundant coordinates `row` and
`col` (always equal to the lookup indices); they are not duplicated
here. -/
structure Cell where
  value : Tok
  type : CellType
deriving DecidableEq, Repr

/-- A board, modelled as a total lookup function; the source only indexes
`board[row][col]` after a bounds check. -/
def Board : Type := ℕ → ℕ → Cell

/-- The operator subset for the `easy` difficulty in `generateBoard`. -/
def easyOps : List Op := [Op.add, Op.sub, Op.mul]

/-- `board` restricted to `N × N` is a possible output of the
`generateBoard` functions (`game.tsx` lines 109-151, `gameLogic.ts`
lines 3-44): checkerboard typing, a digit 1-9 where `(row+col) % 2 = 0`,
an operator from `ops` elsewhere. -/
def GeneratedBoard (board : Board) (N : ℕ) (ops : List Op) : Prop :=
  ∀ i j, i < N → j < N →
    if (i + j) % 2 = 0 then
      (board i j).type = CellType.number ∧
      ∃ n : ℤ, 1 ≤ n ∧ n ≤ 9 ∧ (board i j).value = Tok.num n
    else
      (board i j).type = CellType.operation ∧
      ∃ o ∈ ops, (board i j).value = Tok.op o

/-- The token values `board[i][start..start+len-1]` of a horizontal run. -/
def rowRun (board : Board) (i start len : ℕ) : List Tok :=
  (List.range len).map (fun j => (board i (start + j)).value)

/-- The token values `board[start..start+len-1][i]` of a vertical run. -/
def colRun (board : Board) (i start len : ℕ) : List Tok :=
  (List.range len).map (fun j => (board (start + j) i).value)

/-- The `(start, length)` pairs scanned by the two inner loops of
`generateTargets`: `startCol = 0, 2, 4, … < N` and
`endCol = startCol + 2, startCol + 4, … < N`, in loop order. -/
def runSpans (N : ℕ) : List (ℕ × ℕ) :=
  ((List.range N).filter (fun s => s % 2 = 0)).flatMap (fun s =>
    ((List.range N).filter (fun e => s + 2 ≤ e ∧ (e - s) % 2 = 0)).map
      (fun e => (s, e - s + 1)))

/-- All candidate token runs of `generateTargets` (`game.tsx`
lines 154-193, identical in `gameLogic.ts` lines 82-118), in scan order:
for each index `i`, first the horizontal runs of row `i`, then the
vertical runs of column `i`. -/
def targetCandidates (board : Board) (N : ℕ) : List (List Tok) :=
  (List.range N).flatMap (fun i =>
    ((runSpans N).map (fun se => rowRun board i se.1 se.2)) ++
    ((runSpans N).map (fun se => colRun board i se.1 se.2)))

/-- One acceptance step of `generateTargets`: a run result is appended if
the required count has not been reached, evaluation succeeded, and the
value is positive, at most 1000 and not yet used.  The source's early
loop exits are observationally equal to this guard, because iterations
have no other effect once the count is reached. -/
def considerTarget (count : ℕ) (acc : List ℚ) (e : List Tok) : List ℚ :=
  if acc.length < count then
    match evaluateExpression e with
    | some r => if 0 < r ∧ r ≤ 1000 ∧ r ∉ acc then acc ++ [r] else acc
    | none => acc
  else acc

/-- `generateTargets`: fold the acceptance step over the candidate runs,
then `targets.slice(0, targetCount)`. -/
def generateTargets (board : Board) (N : ℕ) : List ℚ :=
  ((targetCandidates board N).foldl (considerTarget (max 4 (N / 2))) []).take
    (max 4 (N / 2))

/-- A board that `generateBoard(5, "easy")` can produce: every number
cell is 1, every operator cell is `-`. -/
def unifBoard : Board := fun i j =>
  if (i + j) % 2 = 0 then ⟨Tok.num 1, CellType.number⟩
  else ⟨Tok.op Op.sub, CellType.operation⟩

/-- The 8 unit directions tried by `findAllSolutions`, in source order:
4 axis-aligned then 4 diagonal. -/
def directions : List (ℤ × ℤ) :=
  [(0, 1), (1, 0), (0, -1), (-1, 0), (1, 1), (1, -1), (-1, 1), (-1, -1)]

/-- The path lengths tried by `findAllSolutions`:
`for (let length = 3; length <= Math.min(N, 7); length += 2)`. -/
def lineLengths (N : ℕ) : List ℕ :=
  [3, 5, 7].filter (fun len => len ≤ min N 7)

/-- The `i`-th position along a line:
`(startRow + i*dRow, startCol + i*dCol)`. -/
def stepPos (start : ℕ × ℕ) (d : ℤ × ℤ) (i : ℕ) : ℤ × ℤ :=
  ((start.1 : ℤ) + i * d.1, (start.2 : ℤ) + i * d.2)

/-- The bounds check
`row < 0 || row >= boardSize || col < 0 || col >= boardSize`, negated. -/
def inBoard (N : ℕ) (p : ℤ × ℤ) : Bool :=
  decide (0 ≤ p.1) && decide (p.1 < (N : ℤ)) &&
    decide (0 ≤ p.2) && decide (p.2 < (N : ℤ))

/-- Board lookup at a signed position; in the source the position is only
read after `inBoard` holds, so both coordinates are non-negative. -/
def cellAt (board : Board) (p : ℤ × ℤ) : Cell :=
  board p.1.toNat p.2.toNat

/-- The path-building loop of `findAllSolutions`: the line of length
`len` from `start` in direction `d` is valid iff every step stays on the
board and has the expected alternating number/operation type. -/
def lineOk (board : Board) (N : ℕ) (start : ℕ × ℕ) (d : ℤ × ℤ) (len : ℕ) : Bool :=
  (List.range len).all (fun i =>
    inBoard N (stepPos start d i) &&
      decide ((cellAt board (stepPos start d i)).type =
        (if i % 2 = 0 then CellType.number else CellType.operation)))

/-- The cell coordinates of a line. -/
def pathOf (start : ℕ × ℕ) (d : ℤ × ℤ) (len : ℕ) : List (ℤ × ℤ) :=
  (List.range len).map (stepPos start d)

/-- The token values along a line. -/
def toksOf (board : Board) (start : ℕ × ℕ) (d : ℤ × ℤ) (len : ℕ) : List Tok :=
  (List.range len).map (fun i => (cellAt board (stepPos start d i)).value)

/-- A hint produced by `findAllSolutions`.  The source renders
`expression` as a parenthesised display string of exactly these tokens;
the tokens are kept instead of the formatted text. -/
structure Solution where
  cells : List (ℤ × ℤ)
  target : ℚ
  expression : List Tok
deriving DecidableEq, Repr

/-- The body of the two inner loops of `findAllSolutions`: build the line
of length `len` from `start` in direction `d`, discard it if it runs
off-board or breaks the alternation, evaluate it, and keep it when the
result matches a target.  (`valid && expression.length >= 3` in the
source: `len ≥ 3` always holds for `len ∈ lineLengths N`.) -/
def tryLine (board : Board) (targets : List ℚ) (N : ℕ) (start : ℕ × ℕ)
    (d : ℤ × ℤ) (len : ℕ) : Option Solution :=
  if lineOk board N start d len then
    match evaluateExpression (toksOf board start d len) with
    | some r =>
      if r ∈ targets then
        some ⟨pathOf start d len, r, toksOf board start d len⟩
      else none
    | none => none
  else none

/-- `findAllSolutions` (`game.tsx` lines 256-331, identical in
`gameLogic.ts` lines 120-192): for every number cell, every direction
and every odd length up to `min(N, 7)`, try the line. -/
def findAllSolutions (board : Board) (targets : List ℚ) (N : ℕ) :
    List Solution :=
  (List.range N).flatMap (fun sr =>
    (List.range N).flatMap (fun sc =>
      if (board sr sc).type = CellType.number then
        directions.flatMap (fun d =>
          (lineLengths N).filterMap (tryLine board targets N (sr, sc) d))
      else []))

/-- The engine-relevant fields of the `GameState` record in `game.tsx`
(lines 31-45) together with the separate `showVictoryModal` and
`isSelecting` `useState` hooks.  The display string `currentExpression`
and the difficulty/size settings play no role in the claims and are
omitted. -/
structure GameState where
  board : Board
  boardSize : ℕ
  targets : List ℚ
  foundTargets : Finset ℚ
  selectedCells : List (ℕ × ℕ)
  gameTime : ℕ
  isPlaying : Bool
  attemptCount : ℕ
  currentResult : Option ℚ
  showSolutions : Bool
  solutions : List Solution
  showVictoryModal : Bool
  isSelecting : Bool

/-- `handleGiveUp` in `game.tsx` (lines 334-342): search solutions for
the session's full target list (`gameState.targets`, not the outstanding
ones) and stop play. -/
def handleGiveUp (s : GameState) : GameState :=
  { s with
    isPlaying := false
    showSolutions := true
    solutions := findAllSolutions s.board s.targets s.boardSize }

/-- A 5×5 board `generateBoard` can produce, whose first row reads
`5 + 3 - 1`; all other number cells are 1 and operator cells `-`. -/
def board5 : Board := fun i j =>
  if (i + j) % 2 = 0 then
    Cell.mk (Tok.num (if i = 0 ∧ j = 0 then 5 else if i = 0 ∧ j = 2 then 3 else 1))
      CellType.number
  else
    Cell.mk (Tok.op (if i = 0 ∧ j = 1 then Op.add else Op.sub)) CellType.operation

/-- A session on `board5` whose single target 8 has already been found. -/
def gameSt5 : GameState where
  board := board5
  boardSize := 5
  targets := [8]
  foundTargets := ({8} : Finset ℚ)
  selectedCells := []
  gameTime := 30
  isPlaying := true
  attemptCount := 1
  currentResult := none
  showSolutions := false
  solutions := []
  showVictoryModal := false
  isSelecting := false

/-- The solution `5 + 3 = 8` along row 0 of `board5`. -/
def sol58 : Solution :=
  ⟨pathOf (0, 0) (0, 1) 3, 8, toksOf board5 (0, 0) (0, 1) 3⟩

/-- `cells.every(c => proj(c) = proj(cells[0]))`: all cells share the
projected coordinate of the first cell (`allSameRow` / `allSameCol`). -/
def sameAll (proj : ℕ × ℕ → ℕ) (cells : List (ℕ × ℕ)) : Bool :=
  match cells with
  | [] => true
  | c0 :: _ => cells.all (fun c => proj c = proj c0)

/-- `Math.abs(proj(cells[i]) - proj(cells[i-1])) === 1` for consecutive
cells, over ℕ: one of the two coordinates is the successor of the
other. -/
def adjacentSteps (proj : ℕ × ℕ → ℕ) : List (ℕ × ℕ) → Bool
  | a :: b :: rest =>
    (decide (proj b = proj a + 1) || decide (proj a = proj b + 1)) &&
      adjacentSteps proj (b :: rest)
  | _ => true

/-- `isValidPath` in `game.tsx` (lines 384-405): a path of length < 2 is
valid; otherwise all cells share a row (and columns step by 1) or all
share a column (and rows step by 1). -/
def isValidPath (cells : List (ℕ × ℕ)) : Bool :=
  if cells.length < 2 then true
  else if sameAll Prod.fst cells then adjacentSteps Prod.snd cells
  else if sameAll Prod.snd cells then adjacentSteps Prod.fst cells
  else false

/-- The expression-building loop of `updateSelection` in `game.tsx`
(lines 509-518): cell `i` must be a number for even `i`, an operation for
odd `i`. -/
def altFrom (board : Board) : ℕ → List (ℕ × ℕ) → Bool
  | _, [] => true
  | i, c :: rest =>
    decide ((board c.1 c.2).type =
      (if i % 2 = 0 then CellType.number else CellType.operation)) &&
      altFrom board (i + 1) rest

/-- The alternation check of `updateSelection`, from index 0. -/
def alternationOk (board : Board) (cells : List (ℕ × ℕ)) : Bool :=
  altFrom board 0 cells

/-- The token values along a selected path. -/
def pathToks (board : Board) (cells : List (ℕ × ℕ)) : List Tok :=
  cells.map (fun c => (board c.1 c.2).value)

/-- The final `setGameState` of `updateSelection`: publish the selection
and the live result (`expression.length >= 3 ? evaluateExpression(...) :
null`). -/
def applySelection (s : GameState) (cells : List (ℕ × ℕ)) : GameState :=
  { s with
    selectedCells := cells
    currentResult :=
      if 3 ≤ cells.length then evaluateExpression (pathToks s.board cells)
      else none }

/-- `updateSelection` in `game.tsx` (lines 497-578): reject (leave state
unchanged) when the recomputed path is geometrically invalid, starts on a
non-number cell, or breaks the alternation; otherwise publish it. -/
def updateSelection (s : GameState) (cells : List (ℕ × ℕ)) : GameState :=
  if !(isValidPath cells) && decide (1 < cells.length) then s
  else
    match cells with
    | [] => applySelection s []
    | c :: _ =>
      if (s.board c.1 c.2).type ≠ CellType.number then s
      else if !(alternationOk s.board cells) && decide (1 < cells.length) then s
      else applySelection s cells

/-- `handleCellSelectionStart` in `game.tsx` (lines 408-417). -/
def handleCellSelectionStart (s : GameState) (c : ℕ × ℕ) : GameState :=
  { s with
    isSelecting := true
    selectedCells := [c]
    currentResult := none }

/-- `handleSelectionEnd` in `game.tsx` (lines 580-618), flattened: unless
a selection is in progress, do nothing; otherwise stop selecting, and if
the live result is non-null on a path of length ≥ 3, count the attempt
and, when the result is a not-yet-found target, add it and fire the Won
transition (`isPlaying := false`, victory modal) exactly when the new
found set reaches the target count.  The trailing `setTimeout` clear of
the selection is included in each branch. -/
def handleSelectionEnd (s : GameState) : GameState :=
  if s.isSelecting = false then s
  else
    match s.currentResult with
    | some r =>
      if 3 ≤ s.selectedCells.length then
        if r ∈ s.targets ∧ r ∉ s.foundTargets then
          if (insert r s.foundTargets).card = s.targets.length then
            { s with
              isSelecting := false
              attemptCount := s.attemptCount + 1
              foundTargets := insert r s.foundTargets
              isPlaying := false
              showVictoryModal := true
              selectedCells := []
              currentResult := none }
          else
            { s with
              isSelecting := false
              attemptCount := s.attemptCount + 1
              foundTargets := insert r s.foundTargets
              selectedCells := []
              currentResult := none }
        else
          { s with
            isSelecting := false
            attemptCount := s.attemptCount + 1
            selectedCells := []
            currentResult := none }
      else
        { s with
          isSelecting := false
          selectedCells := []
          currentResult := none }
    | none =>
      { s with
        isSelecting := false
        selectedCells := []
        currentResult := none }

/-- The 1-second timer effect in `game.tsx` (lines 373-381): the interval
exists only while `isPlaying`, and each tick increments `gameTime`; a
state that is not playing receives no ticks, so a tick is the identity
there. -/
def tick (s : GameState) : GameState :=
  if s.isPlaying then { s with gameTime := s.gameTime + 1 } else s

/-- The winning path `5 + 3` along row 0 of `board5`. -/
def path8 : List (ℕ × ℕ) := [(0, 0), (0, 1), (0, 2)]

/-- A fresh playing session on `board5` with two targets, used to witness
the double-release behaviour. -/
def gameSt8 : GameState where
  board := board5
  boardSize := 5
  targets := [8, 100]
  foundTargets := (∅ : Finset ℚ)
  selectedCells := []
  gameTime := 12
  isPlaying := true
  attemptCount := 0
  currentResult := none
  showSolutions := false
  solutions := []
  showVictoryModal := false
  isSelecting := false

/-- A session on `board5` one release away from completion: the live
result 8 matches the only target. -/
def gameSt9 : GameState where
  board := board5
  boardSize := 5
  targets := [8]
  foundTargets := (∅ : Finset ℚ)
  selectedCells := [(0, 0), (0, 1), (0, 2)]
  gameTime := 41
  isPlaying := true
  attemptCount := 2
  currentResult := some 8
  showSolutions := false
  solutions := []
  showVictoryModal := false
  isSelecting := true

/-- A token of the constructor surface: editor-validated cell values are
integers 0..99 (`handleCellValueChange`, `constructor.tsx` lines
104-137), so numeric payloads are `ℕ`. -/
inductive CVal where
  | num (n : ℕ)
  | op (o : Op)
deriving DecidableEq, Repr

/-- Constructor tokens viewed as evaluator tokens. -/
def cvalToTok : CVal → Tok
  | .num n => Tok.num (n : ℤ)
  | .op o => Tok.op o

/-- `parseInt(String(a) + String(b))` for naturals: append the decimal
digits of `b` (`(Nat.repr b).length` of them, exactly `String(b)`) to
`a`. -/
def concatNum (a b : ℕ) : ℕ := a * 10 ^ (Nat.repr b).length + b

/-- The splice loop of the Concatenation-mode normalisation
(`constructor.tsx` lines 194-206 and 382-394), re-expressed with an
accumulator: merge the running token with the next one while both are
numeric (the source re-checks the same index after each splice, which is
exactly this left-to-right accumulation). -/
def mergeConcatAux (acc : CVal) : List CVal → List CVal
  | [] => [acc]
  | x :: rest =>
    match acc, x with
    | CVal.num a, CVal.num b => mergeConcatAux (CVal.num (concatNum a b)) rest
    | _, _ => acc :: mergeConcatAux x rest

/-- Concatenation-mode normalisation of a token list. -/
def mergeConcat : List CVal → List CVal
  | [] => []
  | x :: rest => mergeConcatAux x rest

/-- No two adjacent tokens are both numeric. -/
def noAdjacentNums : List CVal → Prop
  | CVal.num _ :: CVal.num _ :: _ => False
  | _ :: rest => noAdjacentNums rest
  | [] => True

/-- A constructor-surface cell (`Cell` in `constructor.tsx` lines 28-33):
the value may still be unset (`null`); the type is chosen independently
by the author. -/
structure CCell where
  value : Option CVal
  type : CellType
deriving DecidableEq, Repr

/-- A constructor board as a total lookup function. -/
def CBoard : Type := ℕ → ℕ → CCell

/-- The constructor page's test-play state: the `TestGameState` record
(`constructor.tsx` lines 35-41) together with the board, the declared
target list and the separate `isSelecting` / `isBoardDirty` hooks. -/
structure CtorState where
  board : CBoard
  targets : List ℚ
  selectedCells : List (ℕ × ℕ)
  foundTargets : Finset ℚ
  currentResult : Option ℚ
  attemptCount : ℕ
  isSelecting : Bool
  isBoardDirty : Bool

/-- Token extraction along a path, failing on the first unset cell
(`cellData.value === null` aborts the selection). -/
def extractVals (board : CBoard) : List (ℕ × ℕ) → Option (List CVal)
  | [] => some []
  | c :: rest =>
    match (board c.1 c.2).value with
    | none => none
    | some v => (extractVals board rest).map (fun vs => v :: vs)

/-- `updateSelection` in `constructor.tsx` (lines 177-217): extract the
values (clearing the selection if any cell is unset), merge adjacent
numeric tokens, evaluate, and publish. -/
def ctorUpdateSelection (s : CtorState) (path : List (ℕ × ℕ)) : CtorState :=
  match extractVals s.board path with
  | none =>
    { s with
      selectedCells := []
      currentResult := none }
  | some vs =>
    { s with
      selectedCells := path
      currentResult := evaluateExpressionCtor ((mergeConcat vs).map cvalToTok) }

/-- `handleSelectionEnd` in `constructor.tsx` (lines 262-304), flattened:
with a selection in progress, a non-null result on a path of length ≥ 1
that matches a not-yet-found declared target is added to
`FoundTargets` and counted; solving the last target clears the dirty
flag.  The trailing `setTimeout` clear is included in each branch. -/
def ctorSelectionEnd (s : CtorState) : CtorState :=
  if s.isSelecting = false then s
  else
    match s.currentResult with
    | some r =>
      if 1 ≤ s.selectedCells.length ∧ r ∈ s.targets ∧ r ∉ s.foundTargets then
        if (insert r s.foundTargets).card = s.targets.length then
          { s with
            isSelecting := false
            foundTargets := insert r s.foundTargets
            attemptCount := s.attemptCount + 1
            isBoardDirty := false
            selectedCells := []
            currentResult := none }
        else
          { s with
            isSelecting := false
            foundTargets := insert r s.foundTargets
            attemptCount := s.attemptCount + 1
            selectedCells := []
            currentResult := none }
      else
        { s with
          isSelecting := false
          selectedCells := []
          currentResult := none }
    | none =>
      { s with
        isSelecting := false
        selectedCells := []
        currentResult := none }

/-- `handleTestCellClick` in `constructor.tsx` (lines 306-428): tap-mode
selection.  An unset cell is ignored; re-tapping a selected cell clears;
the first tap must hit a number cell and publishes its value as the live
result; later taps must be adjacent and collinear, extend the selection,
re-merge and re-evaluate, and score immediately.  (A number-typed cell
holding an operator value cannot be produced by the editor; its `as
number` coercion is modelled as no result.) -/
def ctorTestClick (s : CtorState) (rc : ℕ × ℕ) : CtorState :=
  match (s.board rc.1 rc.2).value with
  | none => s
  | some cv =>
    if rc ∈ s.selectedCells then
      { s with
        selectedCells := []
        currentResult := none }
    else
      match s.selectedCells.getLast? with
      | none =>
        if (s.board rc.1 rc.2).type ≠ CellType.number then s
        else
          { s with
            selectedCells := [rc]
            currentResult :=
              match cv with
              | CVal.num n => some (n : ℚ)
              | CVal.op _ => none }
      | some last =>
        if !((decide ((last.1 = rc.1 + 1 ∨ rc.1 = last.1 + 1) ∧ last.2 = rc.2)) ||
            (decide ((last.2 = rc.2 + 1 ∨ rc.2 = last.2 + 1) ∧ last.1 = rc.1))) then
          { s with
            selectedCells := []
            currentResult := none }
        else if !(s.selectedCells.all (fun c =>
            (decide (c.1 = last.1 ∧ c.1 = rc.1)) ||
              (decide (c.2 = last.2 ∧ c.2 = rc.2)))) then
          { s with
            selectedCells := []
            currentResult := none }
        else
          match extractVals s.board (s.selectedCells ++ [rc]) with
          | none =>
            { s with
              selectedCells := []
              currentResult := none }
          | some vs =>
            match evaluateExpressionCtor ((mergeConcat vs).map cvalToTok) with
            | some r =>
              if r ∈ s.targets ∧ r ∉ s.foundTargets then
                if (insert r s.foundTargets).card = s.targets.length then
                  { s with
                    selectedCells := s.selectedCells ++ [rc]
                    currentResult := some r
                    foundTargets := insert r s.foundTargets
                    attemptCount := s.attemptCount + 1
                    isBoardDirty := false }
                else
                  { s with
                    selectedCells := s.selectedCells ++ [rc]
                    currentResult := some r
                    foundTargets := insert r s.foundTargets
                    attemptCount := s.attemptCount + 1 }
              else
                { s with
                  selectedCells := s.selectedCells ++ [rc]
                  currentResult := some r }
            | none =>
              { s with
                selectedCells := s.selectedCells ++ [rc]
                currentResult := none }

/-- A constructor test board: number cells hold 7, operator cells `+`. -/
def cboard10 : CBoard := fun i j =>
  if (i + j) % 2 = 0 then ⟨some (CVal.num 7), CellType.number⟩
  else ⟨some (CVal.op Op.add), CellType.operation⟩

/-- A test-play state on `cboard10` with declared target 7. -/
def ctorSt10 : CtorState where
  board := cboard10
  targets := [7]
  selectedCells := []
  foundTargets := (∅ : Finset ℚ)
  currentResult := none
  attemptCount := 0
  isSelecting := true
  isBoardDirty := false

theorem pairsToks_nil : pairsToks [] = [] := rfl

theorem pairsToks_cons (p : Op × ℤ) (ps : List (Op × ℤ)) :
    pairsToks (p :: ps) = Tok.op p.1 :: Tok.num p.2 :: pairsToks ps := by
  simp [pairsToks]

theorem pairsToks_length (ps : List (Op × ℤ)) :
    (pairsToks ps).length = 2 * ps.length := by
  induction ps with
  | nil => simp [pairsToks_nil]
  | cons p ps ih =>
    rw [pairsToks_cons]
    simp only [List.length_cons, ih]
    omega

theorem specLeftFold_cons (r : ℚ) (p : Op × ℤ) (ps : List (Op × ℤ)) :
    specLeftFold r (p :: ps) =
      specLeftFold
        (match p.1 with
        | .add => r + p.2
        | .sub => r - p.2
        | .mul => r * p.2
        | .div => r / p.2
        | .pow => r ^ p.2)
        ps := by
  simp [specLeftFold]

theorem evalSteps_pairsToks (r : ℚ) (ps : List (Op × ℤ))
    (hops : ∀ p ∈ ps, p.1 ≠ Op.pow) :
    evalSteps applyOp r (pairsToks ps) =
      if (Op.div, (0 : ℤ)) ∈ ps then none else some (specLeftFold r ps) := by
  induction ps generalizing r with
  | nil => simp [pairsToks_nil, evalSteps, specLeftFold]
  | cons p ps ih =>
    obtain ⟨o, w⟩ := p
    have hoppow : o ≠ Op.pow := hops (o, w) (List.mem_cons_self _ _)
    have hops2 : ∀ p ∈ ps, p.1 ≠ Op.pow := fun p hp => hops p (List.mem_cons_of_mem _ hp)
    rw [pairsToks_cons, specLeftFold_cons]
    cases o with
    | pow => exact absurd rfl hoppow
    | add =>
      rw [evalSteps]
      simp only [applyOp]
      rw [ih (r + w) hops2]
      simp [List.mem_cons]
    | sub =>
      rw [evalSteps]
      simp only [applyOp]
      rw [ih (r - w) hops2]
      simp [List.mem_cons]
    | mul =>
      rw [evalSteps]
      simp only [applyOp]
      rw [ih (r * w) hops2]
      simp [List.mem_cons]
    | div =>
      by_cases hw : w = 0
      · subst hw
        rw [evalSteps]
        simp [applyOp, List.mem_cons]
      · rw [evalSteps]
        simp only [applyOp, if_neg hw]
        rw [ih (r / w) hops2]
        have hmm : ((Op.div, (0 : ℤ)) ∈ (Op.div, w) :: ps) ↔
            ((Op.div, (0 : ℤ)) ∈ ps) := by
          simp [List.mem_cons, Prod.mk.injEq, Ne.symm hw]
        rw [if_congr hmm rfl rfl]

/-- Claim C3: on a well-formed token list (odd length ≥ 3, alternating
number/operator) whose operators are among `+ - * /`, the `game.tsx`
evaluator returns the two-decimal rounding of the strict left-to-right
fold with no precedence, and returns the invalid signal exactly when some
division has operand 0; the mobile evaluator agrees, and the spec
examples `5+3 = 8`, `5-3*2 = 4` and `4/0 invalid` hold. -/
theorem eval_wellFormed_is_leftFold (v : ℤ) (ps : List (Op × ℤ))
    (hne : ps ≠ []) (hops : ∀ p ∈ ps, p.1 ≠ Op.pow) :
    (evaluateExpression (wellFormedToks v ps) = none ↔ (Op.div, (0 : ℤ)) ∈ ps) ∧
    ((Op.div, (0 : ℤ)) ∉ ps →
      evaluateExpression (wellFormedToks v ps) =
        some (jsRound2 (specLeftFold (v : ℚ) ps))) ∧
    evaluateExpressionMobile (wellFormedToks v ps) =
      evaluateExpression (wellFormedToks v ps) ∧
    evaluateExpression [Tok.num 5, Tok.op .add, Tok.num 3] = some 8 ∧
    evaluateExpression [Tok.num 5, Tok.op .sub, Tok.num 3, Tok.op .mul, Tok.num 2] =
      some 4 ∧
    evaluateExpression [Tok.num 4, Tok.op .div, Tok.num 0] = none := by
  have hlen : (wellFormedToks v ps).length = 2 * ps.length + 1 := by
    simp [wellFormedToks, pairsToks_length]
  have hguard : ¬((wellFormedToks v ps).length < 3 ∨
      (wellFormedToks v ps).length % 2 = 0) := by
    rw [hlen]
    have : 1 ≤ ps.length := List.length_pos.mpr hne
    omega
  have hmain : evaluateExpression (wellFormedToks v ps) =
      (evalSteps applyOp (v : ℚ) (pairsToks ps)).map jsRound2 := by
    rw [evaluateExpression, if_neg hguard, wellFormedToks, evalToks]
  refine ⟨?_, ?_, rfl, ?_, ?_, ?_⟩
  · rw [hmain, evalSteps_pairsToks _ _ hops]
    by_cases hmem : (Op.div, (0 : ℤ)) ∈ ps <;> simp [hmem]
  · intro hmem
    rw [hmain, evalSteps_pairsToks _ _ hops, if_neg hmem]
    rfl
  · norm_num [evaluateExpression, evalToks, evalSteps, applyOp, jsRound2]
  · norm_num [evaluateExpression, evalToks, evalSteps, applyOp, jsRound2]
  · norm_num [evaluateExpression, evalToks, evalSteps, applyOp, jsRound2]

/-- Witness for C3 at `5 + 3`. -/
theorem eval_wellFormed_is_leftFold_witness :
    (evaluateExpression (wellFormedToks 5 [(Op.add, 3)]) = none ↔
      (Op.div, (0 : ℤ)) ∈ [(Op.add, (3 : ℤ))]) ∧
    ((Op.div, (0 : ℤ)) ∉ [(Op.add, (3 : ℤ))] →
      evaluateExpression (wellFormedToks 5 [(Op.add, 3)]) =
        some (jsRound2 (specLeftFold (5 : ℚ) [(Op.add, 3)]))) ∧
    evaluateExpressionMobile (wellFormedToks 5 [(Op.add, 3)]) =
      evaluateExpression (wellFormedToks 5 [(Op.add, 3)]) ∧
    evaluateExpression [Tok.num 5, Tok.op .add, Tok.num 3] = some 8 ∧
    evaluateExpression [Tok.num 5, Tok.op .sub, Tok.num 3, Tok.op .mul, Tok.num 2] =
      some 4 ∧
    evaluateExpression [Tok.num 4, Tok.op .div, Tok.num 0] = none :=
  eval_wellFormed_is_leftFold 5 [(Op.add, 3)] (by simp) (by simp)

/-- Claim C1 (code bug): the `game-new.tsx` evaluator applies `^` to a
negative accumulated result instead of failing: on `1 - 3 ^ 2` it returns
`(1-3)^2 = 4`, while the `game.tsx` and mobile evaluators return the
invalid signal as the spec requires. -/
theorem gameNew_pow_negative_base_bug :
    evaluateExpressionNew [Tok.num 1, Tok.op .sub, Tok.num 3, Tok.op .pow, Tok.num 2] =
      some 4 ∧
    evaluateExpression [Tok.num 1, Tok.op .sub, Tok.num 3, Tok.op .pow, Tok.num 2] =
      none ∧
    evaluateExpressionMobile [Tok.num 1, Tok.op .sub, Tok.num 3, Tok.op .pow, Tok.num 2] =
      none := by
  refine ⟨?_, ?_, ?_⟩ <;>
    norm_num [evaluateExpressionNew, evaluateExpression, evaluateExpressionMobile,
      evalToks, evalSteps, applyOp, applyOpNew, jsRound2]

/-- Claim C2 (counterexample): the constructor's evaluator does not reject
short token lists — it evaluates the singleton `[5]` to `5`. -/
theorem ctor_eval_singleton_not_none :
    evaluateExpressionCtor [Tok.num 5] = some 5 := by
  norm_num [evaluateExpressionCtor, evalToks, evalSteps, applyOp, jsRound2]

/-- Claim C2 (amended): token lists of length < 3 or of even length are
rejected by the `game.tsx`, `game-new.tsx` and mobile evaluators; the
constructor's evaluator instead rejects only the empty list, evaluating
`[5]` and `[5,'+']` to `5`. -/
theorem short_or_even_invalid (e : List Tok)
    (h : e.length < 3 ∨ e.length % 2 = 0) :
    evaluateExpression e = none ∧ evaluateExpressionMobile e = none ∧
    evaluateExpressionNew e = none ∧
    evaluateExpressionCtor [] = none ∧
    evaluateExpressionCtor [Tok.num 5] = some 5 ∧
    evaluateExpressionCtor [Tok.num 5, Tok.op .add] = some 5 := by
  refine ⟨?_, ?_, ?_, rfl, ?_, ?_⟩
  · rw [evaluateExpression, if_pos h]
  · rw [evaluateExpressionMobile, if_pos h]
  · rw [evaluateExpressionNew, if_pos h]
  · norm_num [evaluateExpressionCtor, evalToks, evalSteps, applyOp, jsRound2]
  · norm_num [evaluateExpressionCtor, evalToks, evalSteps, applyOp, jsRound2]

/-- Witness for C2 (amended) at the even-length list `[5,'+']`. -/
theorem short_or_even_invalid_witness :
    evaluateExpression [Tok.num 5, Tok.op .add] = none ∧
    evaluateExpressionMobile [Tok.num 5, Tok.op .add] = none ∧
    evaluateExpressionNew [Tok.num 5, Tok.op .add] = none ∧
    evaluateExpressionCtor [] = none ∧
    evaluateExpressionCtor [Tok.num 5] = some 5 ∧
    evaluateExpressionCtor [Tok.num 5, Tok.op .add] = some 5 :=
  short_or_even_invalid [Tok.num 5, Tok.op .add] (by simp)

theorem considerTarget_nodup (count : ℕ) (acc : List ℚ) (e : List Tok)
    (h : acc.Nodup) : (considerTarget count acc e).Nodup := by
  rw [considerTarget]
  split
  · cases hev : evaluateExpression e with
    | none => exact h
    | some r =>
      simp only
      split
      · next hg =>
        have : r ∉ acc := hg.2.2
        simp [List.nodup_append, h, this]
      · exact h
  · exact h

theorem foldl_considerTarget_nodup (count : ℕ) (l : List (List Tok))
    (acc : List ℚ) (h : acc.Nodup) :
    (l.foldl (considerTarget count) acc).Nodup := by
  induction l generalizing acc with
  | nil => exact h
  | cons e l ih => exact ih _ (considerTarget_nodup count acc e h)

/-- Claim C4 (amended): for every board and size, the generated target
list is pairwise distinct and has length at most `max(4, ⌊N/2⌋)` (the
required count is an upper bound, not always attained). -/
theorem generateTargets_nodup_le (board : Board) (N : ℕ) :
    (generateTargets board N).Nodup ∧
    (generateTargets board N).length ≤ max 4 (N / 2) := by
  constructor
  · exact ((foldl_considerTarget_nodup _ _ _ List.nodup_nil).sublist
      (List.take_sublist _ _))
  · rw [generateTargets]
    exact List.length_take_le _ _

theorem foldl_fixed {α β : Type} (f : β → α → β) (l : List α)
    (h : ∀ e ∈ l, ∀ a, f a e = a) (acc : β) : l.foldl f acc = acc := by
  induction l generalizing acc with
  | nil => rfl
  | cons e l ih =>
    rw [List.foldl_cons, h e (List.mem_cons_self _ _)]
    exact ih (fun x hx a => h x (List.mem_cons_of_mem _ hx) a) acc

theorem unifBoard_candidate_shapes :
    ∀ e ∈ targetCandidates unifBoard 5,
      e = [Tok.num 1, Tok.op .sub, Tok.num 1] ∨
      e = [Tok.num 1, Tok.op .sub, Tok.num 1, Tok.op .sub, Tok.num 1] ∨
      e = [Tok.op .sub, Tok.num 1, Tok.op .sub] ∨
      e = [Tok.op .sub, Tok.num 1, Tok.op .sub, Tok.num 1, Tok.op .sub] := by
  decide

theorem unifBoard_candidates_rejected :
    ∀ e ∈ targetCandidates unifBoard 5, ∀ count acc,
      considerTarget count acc e = acc := by
  have h1 : evaluateExpression [Tok.num 1, Tok.op .sub, Tok.num 1] = some 0 := by
    norm_num [evaluateExpression, evalToks, evalSteps, applyOp, jsRound2]
  have h2 : evaluateExpression
      [Tok.num 1, Tok.op .sub, Tok.num 1, Tok.op .sub, Tok.num 1] = some (-1) := by
    norm_num [evaluateExpression, evalToks, evalSteps, applyOp, jsRound2]
  have h3 : evaluateExpression [Tok.op .sub, Tok.num 1, Tok.op .sub] = none := by
    simp [evaluateExpression, evalToks]
  have h4 : evaluateExpression
      [Tok.op .sub, Tok.num 1, Tok.op .sub, Tok.num 1, Tok.op .sub] = none := by
    simp [evaluateExpression, evalToks]
  intro e he count acc
  rcases unifBoard_candidate_shapes e he with h | h | h | h <;> subst h <;>
    simp [considerTarget, h1, h2, h3, h4]

/-- Claim C4 (counterexample): on a board that `generateBoard` can
produce (all number cells 1, all operator cells `-`, easy difficulty,
size 5) the target generator returns the empty list, whose length is not
`max(4, ⌊5/2⌋) = 4` — the claimed length is not always attained. -/
theorem generateTargets_length_counterexample :
    GeneratedBoard unifBoard 5 easyOps ∧
    (generateTargets unifBoard 5).length ≠ max 4 (5 / 2) := by
  constructor
  · intro i j hi hj
    by_cases h : (i + j) % 2 = 0
    · simp only [unifBoard, if_pos h]
      exact ⟨trivial, 1, by norm_num⟩
    · simp only [unifBoard, if_neg h]
      exact ⟨trivial, Op.sub, by simp [easyOps]⟩
  · rw [generateTargets,
      foldl_fixed _ _ (fun e he a => unifBoard_candidates_rejected e he _ a) []]
    simp

theorem tryLine_eq_some (board : Board) (targets : List ℚ) (N : ℕ)
    (start : ℕ × ℕ) (d : ℤ × ℤ) (len : ℕ) (sol : Solution) :
    tryLine board targets N start d len = some sol ↔
      lineOk board N start d len = true ∧
      evaluateExpression (toksOf board start d len) = some sol.target ∧
      sol.target ∈ targets ∧
      sol = ⟨pathOf start d len, sol.target, toksOf board start d len⟩ := by
  rw [tryLine]
  constructor
  · intro h
    split at h
    · next hok =>
      cases hev : evaluateExpression (toksOf board start d len) with
      | none => rw [hev] at h; exact absurd h (by simp)
      | some r =>
        rw [hev] at h
        simp only at h
        split at h
        · next hmem =>
          cases h
          exact ⟨hok, rfl, hmem, rfl⟩
        · exact absurd h (by simp)
    · exact absurd h (by simp)
  · rintro ⟨hok, hev, hmem, hsol⟩
    rw [if_pos hok, hev]
    simp only [if_pos hmem]
    rw [hsol]

/-- Membership in `findAllSolutions`, characterised by the loop data that
produced the solution. -/
theorem mem_findAllSolutions (board : Board) (targets : List ℚ) (N : ℕ)
    (sol : Solution) :
    sol ∈ findAllSolutions board targets N ↔
      ∃ sr sc d len, sr < N ∧ sc < N ∧ d ∈ directions ∧ len ∈ lineLengths N ∧
        (board sr sc).type = CellType.number ∧
        lineOk board N (sr, sc) d len = true ∧
        evaluateExpression (toksOf board (sr, sc) d len) = some sol.target ∧
        sol.target ∈ targets ∧
        sol = ⟨pathOf (sr, sc) d len, sol.target, toksOf board (sr, sc) d len⟩ := by
  rw [findAllSolutions]
  simp only [List.mem_flatMap, List.mem_range, List.mem_filterMap]
  constructor
  · rintro ⟨sr, hsr, sc, hsc, hin⟩
    split at hin
    · next htype =>
      simp only [List.mem_flatMap, List.mem_filterMap] at hin
      obtain ⟨d, hd, len, hlen, htry⟩ := hin
      obtain ⟨hok, hev, hmem, hsol⟩ := (tryLine_eq_some _ _ _ _ _ _ _).mp htry
      exact ⟨sr, sc, d, len, hsr, hsc, hd, hlen, htype, hok, hev, hmem, hsol⟩
    · simp at hin
  · rintro ⟨sr, sc, d, len, hsr, hsc, hd, hlen, htype, hok, hev, hmem, hsol⟩
    refine ⟨sr, hsr, sc, hsc, ?_⟩
    rw [if_pos htype]
    simp only [List.mem_flatMap, List.mem_filterMap]
    exact ⟨d, hd, len, hlen,
      (tryLine_eq_some _ _ _ _ _ _ _).mpr ⟨hok, hev, hmem, hsol⟩⟩

theorem lineOk_spec (board : Board) (N : ℕ) (start : ℕ × ℕ) (d : ℤ × ℤ)
    (len : ℕ) (h : lineOk board N start d len = true) :
    ∀ i < len, inBoard N (stepPos start d i) = true ∧
      (cellAt board (stepPos start d i)).type =
        (if i % 2 = 0 then CellType.number else CellType.operation) := by
  intro i hi
  rw [lineOk, List.all_eq_true] at h
  have hh := h i (List.mem_range.mpr hi)
  simp only [Bool.and_eq_true, decide_eq_true_eq] at hh
  exact hh

/-- Claim C6: every Solution returned by `findAllSolutions` comes from a
line: its path steps from a start cell in a single one of the 8 unit
directions, has odd length between 3 and `min(N, 7)`, stays entirely on
the board, and alternates number/operation cell types starting from a
number cell. -/
theorem findAllSolutions_safe (board : Board) (targets : List ℚ) (N : ℕ)
    (sol : Solution) (hmem : sol ∈ findAllSolutions board targets N) :
    ∃ start d len,
      d ∈ directions ∧
      len % 2 = 1 ∧ 3 ≤ len ∧ len ≤ min N 7 ∧
      sol.cells = pathOf start d len ∧
      sol.cells.length = len ∧
      (∀ p ∈ sol.cells, inBoard N p = true) ∧
      (∀ i < len, (cellAt board (stepPos start d i)).type =
        (if i % 2 = 0 then CellType.number else CellType.operation)) := by
  obtain ⟨sr, sc, d, len, hsr, hsc, hd, hlen, htype, hok, hev, hmemT, hsol⟩ :=
    (mem_findAllSolutions board targets N sol).mp hmem
  have hcells : sol.cells = pathOf (sr, sc) d len := by rw [hsol]
  rw [lineLengths, List.mem_filter] at hlen
  obtain ⟨hmem357, hle⟩ := hlen
  have hle2 : len ≤ min N 7 := by simpa using hle
  have h357 : len = 3 ∨ len = 5 ∨ len = 7 := by simpa using hmem357
  refine ⟨(sr, sc), d, len, hd, ?_, ?_, hle2, hcells, ?_, ?_, ?_⟩
  · rcases h357 with h | h | h <;> subst h <;> norm_num
  · rcases h357 with h | h | h <;> subst h <;> norm_num
  · rw [hcells, pathOf]
    simp
  · intro p hp
    rw [hcells, pathOf] at hp
    simp only [List.mem_map, List.mem_range] at hp
    obtain ⟨i, hi, rfl⟩ := hp
    exact (lineOk_spec board N (sr, sc) d len hok i hi).1
  · intro i hi
    exact (lineOk_spec board N (sr, sc) d len hok i hi).2

theorem sol58_mem : sol58 ∈ findAllSolutions board5 [8] 5 := by
  have htoks : toksOf board5 (0, 0) (0, 1) 3 =
      [Tok.num 5, Tok.op .add, Tok.num 3] := by decide
  refine (mem_findAllSolutions board5 [8] 5 sol58).mpr
    ⟨0, 0, (0, 1), 3, by norm_num, by norm_num, by simp [directions],
      by decide, rfl, by decide, ?_, by simp [sol58], rfl⟩
  show evaluateExpression (toksOf board5 (0, 0) (0, 1) 3) = some 8
  rw [htoks]
  norm_num [evaluateExpression, evalToks, evalSteps, applyOp, jsRound2]

theorem sol58_mem_giveUp : sol58 ∈ (handleGiveUp gameSt5).solutions := by
  rw [show (handleGiveUp gameSt5).solutions = findAllSolutions board5 [8] 5 from rfl]
  exact sol58_mem

/-- Claim C5 (counterexample): abandoning the session `gameSt5`, whose
only target 8 is already in `FoundTargets`, reports a solution whose
matched target 8 is not outstanding — `handleGiveUp` searches against the
full target list. -/
theorem giveUp_reports_already_found_target :
    ∃ sol ∈ (handleGiveUp gameSt5).solutions,
      sol.target ∈ gameSt5.foundTargets := by
  refine ⟨sol58, sol58_mem_giveUp, ?_⟩
  simp [sol58, gameSt5]

/-- Claim C5 (amended): every Solution reported on abandonment has a
matched target that is a member of the session's target set — but not
necessarily an outstanding one: already-found targets are searched and
reported too. -/
theorem giveUp_solution_target_in_targetSet (s : GameState) (sol : Solution)
    (h : sol ∈ (handleGiveUp s).solutions) : sol.target ∈ s.targets := by
  have h2 : sol ∈ findAllSolutions s.board s.targets s.boardSize := by
    rw [show (handleGiveUp s).solutions =
      findAllSolutions s.board s.targets s.boardSize from rfl] at h
    exact h
  obtain ⟨_, _, _, _, _, _, _, _, _, _, _, hmemT, _⟩ :=
    (mem_findAllSolutions _ _ _ _).mp h2
  exact hmemT

/-- Witness for C5 (amended) on the concrete session `gameSt5`. -/
theorem giveUp_solution_target_in_targetSet_witness :
    sol58.target ∈ gameSt5.targets :=
  giveUp_solution_target_in_targetSet gameSt5 sol58 sol58_mem_giveUp

/-- Witness for C6 on the concrete solution `sol58` of `board5`. -/
theorem findAllSolutions_safe_witness :
    ∃ start d len,
      d ∈ directions ∧
      len % 2 = 1 ∧ 3 ≤ len ∧ len ≤ min 5 7 ∧
      sol58.cells = pathOf start d len ∧
      sol58.cells.length = len ∧
      (∀ p ∈ sol58.cells, inBoard 5 p = true) ∧
      (∀ i < len, (cellAt board5 (stepPos start d i)).type =
        (if i % 2 = 0 then CellType.number else CellType.operation)) :=
  findAllSolutions_safe board5 [8] 5 sol58 sol58_mem

theorem updateSelection_accepts (s : GameState) (p : List (ℕ × ℕ))
    (hvalid : isValidPath p = true) (halt : alternationOk s.board p = true)
    (hlen : 3 ≤ p.length) :
    updateSelection s p = applySelection s p := by
  cases p with
  | nil => simp at hlen
  | cons c rest =>
    have htype : (s.board c.1 c.2).type = CellType.number := by
      rw [alternationOk, altFrom] at halt
      simp only [Bool.and_eq_true, decide_eq_true_eq] at halt
      simpa using halt.1
    rw [updateSelection, hvalid]
    simp only [Bool.not_true, Bool.false_and, Bool.false_eq_true, if_false]
    rw [if_neg (by simp [htype]), halt]
    simp

theorem selectionEnd_scores_fields (s : GameState) (r : ℚ)
    (hsel : s.isSelecting = true) (hres : s.currentResult = some r)
    (hlen : 3 ≤ s.selectedCells.length) (hr : r ∈ s.targets)
    (hnew : r ∉ s.foundTargets) :
    (handleSelectionEnd s).attemptCount = s.attemptCount + 1 ∧
    (handleSelectionEnd s).foundTargets = insert r s.foundTargets ∧
    (handleSelectionEnd s).board = s.board ∧
    (handleSelectionEnd s).targets = s.targets ∧
    (handleSelectionEnd s).boardSize = s.boardSize ∧
    (handleSelectionEnd s).isSelecting = false ∧
    (handleSelectionEnd s).gameTime = s.gameTime ∧
    ((insert r s.foundTargets).card = s.targets.length →
      (handleSelectionEnd s).isPlaying = false ∧
      (handleSelectionEnd s).showVictoryModal = true) ∧
    ((insert r s.foundTargets).card ≠ s.targets.length →
      (handleSelectionEnd s).isPlaying = s.isPlaying ∧
      (handleSelectionEnd s).showVictoryModal = s.showVictoryModal) := by
  rw [handleSelectionEnd, hres, if_neg (by simp [hsel])]
  dsimp only
  rw [if_pos hlen, if_pos ⟨hr, hnew⟩]
  by_cases hcard : (insert r s.foundTargets).card = s.targets.length
  · rw [if_pos hcard]
    exact ⟨rfl, rfl, rfl, rfl, rfl, rfl, rfl, fun _ => ⟨rfl, rfl⟩,
      fun h => absurd hcard h⟩
  · rw [if_neg hcard]
    exact ⟨rfl, rfl, rfl, rfl, rfl, rfl, rfl, fun h => absurd h hcard,
      fun _ => ⟨rfl, rfl⟩⟩

theorem selectionEnd_already_found (s : GameState) (r : ℚ)
    (hsel : s.isSelecting = true) (hres : s.currentResult = some r)
    (hlen : 3 ≤ s.selectedCells.length) (hfound : r ∈ s.foundTargets) :
    handleSelectionEnd s =
      { s with
        isSelecting := false
        attemptCount := s.attemptCount + 1
        selectedCells := []
        currentResult := none } := by
  rw [handleSelectionEnd, hres, if_neg (by simp [hsel])]
  dsimp only
  rw [if_pos hlen, if_neg (by intro h; exact h.2 hfound)]

/-- Claim C8: from a playing state, selecting and releasing a winning
path adds its target; selecting and releasing the exact same path a
second time increments `attemptCount` again, but leaves `FoundTargets`
unchanged and does not fire the Won transition a second time
(`isPlaying` and the victory modal keep the values the first release gave
them). -/
theorem repeat_release_counts_but_not_rescores (s0 : GameState)
    (p : List (ℕ × ℕ)) (r : ℚ)
    (hplay : s0.isPlaying = true)
    (hvalid : isValidPath p = true)
    (halt : alternationOk s0.board p = true)
    (hlen : 3 ≤ p.length)
    (heval : evaluateExpression (pathToks s0.board p) = some r)
    (hr : r ∈ s0.targets) (hnew : r ∉ s0.foundTargets) :
    (handleSelectionEnd (updateSelection (handleCellSelectionStart s0 p.headI) p)).attemptCount
        = s0.attemptCount + 1 ∧
    (handleSelectionEnd (updateSelection (handleCellSelectionStart s0 p.headI) p)).foundTargets
        = insert r s0.foundTargets ∧
    (handleSelectionEnd (updateSelection (handleCellSelectionStart
        (handleSelectionEnd (updateSelection (handleCellSelectionStart s0 p.headI) p))
        p.headI) p)).attemptCount = s0.attemptCount + 2 ∧
    (handleSelectionEnd (updateSelection (handleCellSelectionStart
        (handleSelectionEnd (updateSelection (handleCellSelectionStart s0 p.headI) p))
        p.headI) p)).foundTargets
      = (handleSelectionEnd (updateSelection (handleCellSelectionStart s0 p.headI) p)).foundTargets ∧
    (handleSelectionEnd (updateSelection (handleCellSelectionStart
        (handleSelectionEnd (updateSelection (handleCellSelectionStart s0 p.headI) p))
        p.headI) p)).isPlaying
      = (handleSelectionEnd (updateSelection (handleCellSelectionStart s0 p.headI) p)).isPlaying ∧
    (handleSelectionEnd (updateSelection (handleCellSelectionStart
        (handleSelectionEnd (updateSelection (handleCellSelectionStart s0 p.headI) p))
        p.headI) p)).showVictoryModal
      = (handleSelectionEnd (updateSelection (handleCellSelectionStart s0 p.headI) p)).showVictoryModal := by
  set sA := handleCellSelectionStart s0 p.headI with hsA
  have hAboard : sA.board = s0.board := rfl
  have hup1 : updateSelection sA p = applySelection sA p :=
    updateSelection_accepts sA p hvalid (by rw [hAboard]; exact halt) hlen
  have hsel1fields :
      (applySelection sA p).isSelecting = true ∧
      (applySelection sA p).currentResult = some r ∧
      (applySelection sA p).selectedCells = p ∧
      (applySelection sA p).targets = s0.targets ∧
      (applySelection sA p).foundTargets = s0.foundTargets ∧
      (applySelection sA p).attemptCount = s0.attemptCount ∧
      (applySelection sA p).board = s0.board := by
    refine ⟨rfl, ?_, rfl, rfl, rfl, rfl, rfl⟩
    show (if 3 ≤ p.length then evaluateExpression (pathToks sA.board p) else none) = some r
    rw [if_pos hlen, hAboard, heval]
  obtain ⟨hA1, hA2, hA3, hA4, hA5, hA6, hA7⟩ := hsel1fields
  have hend1 := selectionEnd_scores_fields (applySelection sA p) r hA1 hA2
    (by rw [hA3]; exact hlen) (by rw [hA4]; exact hr) (by rw [hA5]; exact hnew)
  obtain ⟨hB1, hB2, hB3, hB4, hB5, hB6, hB7, hBwin, hBnowin⟩ := hend1
  set t1 := handleSelectionEnd (applySelection sA p) with ht1
  rw [hup1]
  refine ⟨by rw [hB1, hA6], by rw [hB2, hA5], ?_, ?_, ?_, ?_⟩
  all_goals {
    set sC := handleCellSelectionStart t1 p.headI with hsC
    have hCboard : sC.board = t1.board := rfl
    have hup2 : updateSelection sC p = applySelection sC p :=
      updateSelection_accepts sC p hvalid
        (by rw [hCboard, hB3, hA7]; exact halt) hlen
    have hC2 : (applySelection sC p).currentResult = some r := by
      show (if 3 ≤ p.length then evaluateExpression (pathToks sC.board p) else none)
        = some r
      rw [if_pos hlen, hCboard, hB3, hA7, heval]
    have hCfound : r ∈ (applySelection sC p).foundTargets := by
      show r ∈ t1.foundTargets
      rw [hB2, hA5]
      exact Finset.mem_insert_self r _
    have hend2 := selectionEnd_already_found (applySelection sC p) r rfl hC2
      (by show 3 ≤ p.length; exact hlen) hCfound
    rw [hup2, hend2]
    first
      | rfl
      | (show t1.attemptCount + 1 = s0.attemptCount + 2
         rw [hB1, hA6]
         try omega)
  }

theorem tick_not_playing (s : GameState) (h : s.isPlaying = false) :
    tick s = s := by
  rw [tick, h]
  simp

theorem tick_iterate_frozen (s : GameState) (h : s.isPlaying = false) (n : ℕ) :
    tick^[n] s = s := by
  induction n with
  | zero => rfl
  | succ n ih => rw [Function.iterate_succ_apply, tick_not_playing s h, ih]

/-- Claim C9: when a release makes `FoundTargets` reach the size of the
target set, the session transitions to Won (`isPlaying` becomes false,
the victory modal fires), and from then on the elapsed-time counter never
advances on any subsequent tick. -/
theorem completion_wins_and_freezes_clock (s : GameState) (r : ℚ)
    (hsel : s.isSelecting = true) (hres : s.currentResult = some r)
    (hlen : 3 ≤ s.selectedCells.length) (hr : r ∈ s.targets)
    (hnew : r ∉ s.foundTargets)
    (hfull : (insert r s.foundTargets).card = s.targets.length) :
    (handleSelectionEnd s).isPlaying = false ∧
    (handleSelectionEnd s).showVictoryModal = true ∧
    ∀ n, (tick^[n] (handleSelectionEnd s)).gameTime =
      (handleSelectionEnd s).gameTime := by
  obtain ⟨-, -, -, -, -, -, -, hwin, -⟩ :=
    selectionEnd_scores_fields s r hsel hres hlen hr hnew
  obtain ⟨hp, hm⟩ := hwin hfull
  refine ⟨hp, hm, fun n => ?_⟩
  rw [tick_iterate_frozen _ hp n]

theorem path8_toks : pathToks gameSt8.board path8 =
    [Tok.num 5, Tok.op .add, Tok.num 3] := by
  decide

/-- Witness for C8: the concrete session `gameSt8`, releasing the winning
path `5 + 3` twice. -/
theorem repeat_release_witness :
    (handleSelectionEnd (updateSelection (handleCellSelectionStart gameSt8 path8.headI) path8)).attemptCount
        = gameSt8.attemptCount + 1 ∧
    (handleSelectionEnd (updateSelection (handleCellSelectionStart gameSt8 path8.headI) path8)).foundTargets
        = insert 8 gameSt8.foundTargets ∧
    (handleSelectionEnd (updateSelection (handleCellSelectionStart
        (handleSelectionEnd (updateSelection (handleCellSelectionStart gameSt8 path8.headI) path8))
        path8.headI) path8)).attemptCount = gameSt8.attemptCount + 2 ∧
    (handleSelectionEnd (updateSelection (handleCellSelectionStart
        (handleSelectionEnd (updateSelection (handleCellSelectionStart gameSt8 path8.headI) path8))
        path8.headI) path8)).foundTargets
      = (handleSelectionEnd (updateSelection (handleCellSelectionStart gameSt8 path8.headI) path8)).foundTargets ∧
    (handleSelectionEnd (updateSelection (handleCellSelectionStart
        (handleSelectionEnd (updateSelection (handleCellSelectionStart gameSt8 path8.headI) path8))
        path8.headI) path8)).isPlaying
      = (handleSelectionEnd (updateSelection (handleCellSelectionStart gameSt8 path8.headI) path8)).isPlaying ∧
    (handleSelectionEnd (updateSelection (handleCellSelectionStart
        (handleSelectionEnd (updateSelection (handleCellSelectionStart gameSt8 path8.headI) path8))
        path8.headI) path8)).showVictoryModal
      = (handleSelectionEnd (updateSelection (handleCellSelectionStart gameSt8 path8.headI) path8)).showVictoryModal :=
  repeat_release_counts_but_not_rescores gameSt8 path8 8 rfl (by decide) (by decide)
    (by decide)
    (by rw [path8_toks]
        norm_num [evaluateExpression, evalToks, evalSteps, applyOp, jsRound2])
    (by norm_num [gameSt8]) (by simp [gameSt8])

/-- Witness for C9 on the concrete session `gameSt9`, checking 5 ticks. -/
theorem completion_wins_and_freezes_clock_witness :
    (handleSelectionEnd gameSt9).isPlaying = false ∧
    (handleSelectionEnd gameSt9).showVictoryModal = true ∧
    (tick^[5] (handleSelectionEnd gameSt9)).gameTime =
      (handleSelectionEnd gameSt9).gameTime := by
  obtain ⟨h1, h2, h3⟩ := completion_wins_and_freezes_clock gameSt9 8 rfl rfl
    (by decide) (by norm_num [gameSt9]) (by simp [gameSt9]) (by simp [gameSt9])
  exact ⟨h1, h2, h3 5⟩

theorem jsRound2_intCast (n : ℤ) : jsRound2 (n : ℚ) = n := by
  rw [jsRound2]
  have h1 : (n : ℚ) * 100 + 1 / 2 = ((n * 100 : ℤ) : ℚ) + (1 / 2 : ℚ) := by
    push_cast
    ring
  rw [h1, Int.floor_int_add]
  norm_num

theorem mergeConcatAux_op_shape (o : Op) (l : List CVal) :
    ∃ t, mergeConcatAux (CVal.op o) l = CVal.op o :: t := by
  cases l with
  | nil => exact ⟨[], rfl⟩
  | cons x rest => exact ⟨mergeConcatAux x rest, rfl⟩

theorem noAdjacentNums_cons_cons_op (x : CVal) (o : Op) (t : List CVal) :
    noAdjacentNums (x :: CVal.op o :: t) ↔ noAdjacentNums (CVal.op o :: t) := by
  cases x <;> simp [noAdjacentNums]

theorem mergeConcatAux_noAdjacent (l : List CVal) :
    ∀ acc, noAdjacentNums (mergeConcatAux acc l) := by
  induction l with
  | nil =>
    intro acc
    cases acc <;> simp [mergeConcatAux, noAdjacentNums]
  | cons x rest ih =>
    intro acc
    cases acc with
    | num a =>
      cases x with
      | num b =>
        show noAdjacentNums (mergeConcatAux (CVal.num (concatNum a b)) rest)
        exact ih _
      | op o =>
        show noAdjacentNums (CVal.num a :: mergeConcatAux (CVal.op o) rest)
        obtain ⟨t, ht⟩ := mergeConcatAux_op_shape o rest
        rw [ht, noAdjacentNums_cons_cons_op, ← ht]
        exact ih _
    | op o =>
      show noAdjacentNums (CVal.op o :: mergeConcatAux x rest)
      simp only [noAdjacentNums]
      exact ih x

theorem mergeConcat_noAdjacent (l : List CVal) :
    noAdjacentNums (mergeConcat l) := by
  cases l with
  | nil => trivial
  | cons x rest => exact mergeConcatAux_noAdjacent rest x

/-- Claim C7: in Concatenation mode, normalisation merges adjacent
numeric tokens by digit-string concatenation until no two adjacent
tokens are both numeric, and the selection surfaces evaluate exactly the
merged sequence; in particular `[1,2,'+',3]` normalises to `[12,'+',3]`
and evaluates to 15. -/
theorem concat_mode_normalization (l : List CVal) (s : CtorState)
    (path : List (ℕ × ℕ)) (vs : List CVal)
    (hx : extractVals s.board path = some vs) :
    noAdjacentNums (mergeConcat l) ∧
    (ctorUpdateSelection s path).currentResult =
      evaluateExpressionCtor ((mergeConcat vs).map cvalToTok) ∧
    mergeConcat [CVal.num 1, CVal.num 2, CVal.op .add, CVal.num 3] =
      [CVal.num 12, CVal.op .add, CVal.num 3] ∧
    evaluateExpressionCtor
        ((mergeConcat [CVal.num 1, CVal.num 2, CVal.op .add, CVal.num 3]).map
          cvalToTok) = some 15 := by
  refine ⟨mergeConcat_noAdjacent l, ?_, by decide, ?_⟩
  · rw [ctorUpdateSelection, hx]
  · have hm : (mergeConcat [CVal.num 1, CVal.num 2, CVal.op .add,
        CVal.num 3]).map cvalToTok = [Tok.num 12, Tok.op .add, Tok.num 3] := by
      decide
    rw [hm]
    norm_num [evaluateExpressionCtor, evalToks, evalSteps, applyOp, jsRound2]

/-- Witness for C7 on `ctorSt10` and the spec's example token list. -/
theorem concat_mode_normalization_witness :
    noAdjacentNums (mergeConcat [CVal.num 1, CVal.num 2, CVal.op .add,
      CVal.num 3]) ∧
    (ctorUpdateSelection ctorSt10 [(0, 0)]).currentResult =
      evaluateExpressionCtor ((mergeConcat [CVal.num 7]).map cvalToTok) ∧
    mergeConcat [CVal.num 1, CVal.num 2, CVal.op .add, CVal.num 3] =
      [CVal.num 12, CVal.op .add, CVal.num 3] ∧
    evaluateExpressionCtor
        ((mergeConcat [CVal.num 1, CVal.num 2, CVal.op .add, CVal.num 3]).map
          cvalToTok) = some 15 :=
  concat_mode_normalization
    [CVal.num 1, CVal.num 2, CVal.op .add, CVal.num 3]
    ctorSt10 [(0, 0)] [CVal.num 7] (by decide)

theorem jsRound2_natCast (v : ℕ) : jsRound2 (v : ℚ) = (v : ℚ) := by
  have h := jsRound2_intCast (v : ℤ)
  push_cast at h
  exact h

theorem singleton_ctor_eval (v : ℕ) :
    evaluateExpressionCtor ((mergeConcat [CVal.num v]).map cvalToTok) =
      some (v : ℚ) := by
  show evaluateExpressionCtor [Tok.num (v : ℤ)] = some (v : ℚ)
  rw [show evaluateExpressionCtor [Tok.num (v : ℤ)] =
    (evalSteps applyOp ((v : ℤ) : ℚ) []).map jsRound2 from rfl]
  rw [evalSteps]
  simp [jsRound2_natCast]

/-- Claim C10: in the constructor's Concatenation-mode test play, a
selection consisting of a single number cell already has the cell's
value as the live result, and completing (releasing) that length-1
selection when the value matches a not-yet-found declared target adds it
to `FoundTargets` and counts the attempt — length-1 paths can score in
this mode, although expressions elsewhere require odd length ≥ 3. -/
theorem ctor_single_cell_scores (s : CtorState) (rc : ℕ × ℕ) (v : ℕ)
    (hempty : s.selectedCells = [])
    (hsel : s.isSelecting = true)
    (htype : (s.board rc.1 rc.2).type = CellType.number)
    (hval : (s.board rc.1 rc.2).value = some (CVal.num v))
    (htar : (v : ℚ) ∈ s.targets)
    (hnew : (v : ℚ) ∉ s.foundTargets) :
    (ctorTestClick s rc).currentResult = some (v : ℚ) ∧
    (ctorTestClick s rc).selectedCells = [rc] ∧
    (ctorSelectionEnd (ctorUpdateSelection s [rc])).foundTargets =
      insert (v : ℚ) s.foundTargets ∧
    (ctorSelectionEnd (ctorUpdateSelection s [rc])).attemptCount =
      s.attemptCount + 1 := by
  have h1 : ctorTestClick s rc =
      { s with
        selectedCells := [rc]
        currentResult := some (v : ℚ) } := by
    rw [ctorTestClick, hval]
    dsimp only
    rw [if_neg (by simp [hempty]), hempty]
    rw [show ([] : List (ℕ × ℕ)).getLast? = none from rfl]
    dsimp only
    rw [if_neg (by simp [htype])]
  have hx : extractVals s.board [rc] = some [CVal.num v] := by
    simp [extractVals, hval]
  have h2 : ctorUpdateSelection s [rc] =
      { s with
        selectedCells := [rc]
        currentResult := some (v : ℚ) } := by
    rw [ctorUpdateSelection, hx]
    dsimp only
    rw [singleton_ctor_eval v]
  refine ⟨by rw [h1], by rw [h1], ?_, ?_⟩
  all_goals {
    rw [h2, ctorSelectionEnd]
    rw [if_neg (by simp [hsel])]
    dsimp only
    rw [if_pos ⟨by norm_num, htar, hnew⟩]
    by_cases hcard :
        (insert (v : ℚ) s.foundTargets).card = s.targets.length
    · rw [if_pos hcard]
    · rw [if_neg hcard]
  }

/-- Witness for C10: tapping the number cell `(0,0)` of `cboard10` (value
7, a declared target) in a fresh test-play state. -/
theorem ctor_single_cell_scores_witness :
    (ctorTestClick ctorSt10 (0, 0)).currentResult = some ((7 : ℕ) : ℚ) ∧
    (ctorTestClick ctorSt10 (0, 0)).selectedCells = [(0, 0)] ∧
    (ctorSelectionEnd (ctorUpdateSelection ctorSt10 [(0, 0)])).foundTargets =
      insert ((7 : ℕ) : ℚ) ctorSt10.foundTargets ∧
    (ctorSelectionEnd (ctorUpdateSelection ctorSt10 [(0, 0)])).attemptCount =
      ctorSt10.attemptCount + 1 :=
  ctor_single_cell_scores ctorSt10 (0, 0) 7 rfl rfl rfl rfl
    (by norm_num [ctorSt10]) (by simp [ctorSt10])

end NumberQuest


